import Mathlib

/-
Verification of the goshare web server (package webserver).

The development shallowly embeds the Go sources:
  - internal/webserver/utils.go       : getUniqueFilename
  - internal/webserver/auth.go        : validateKey, validateKeyCookie, requireKey
  - internal/webserver/webserver.go   : Run (root route, /uploads/ guard, /upload handler)
  - the file-listing helpers          : fileInfo, getSharedFiles, getUploadsFiles

Filenames are modelled as lists of characters, a directory as the list of
names of the files it currently contains, and the filesystem subtree passed
to the listing helpers as an inductive tree.  Machine-level details (sockets,
io.Copy byte streams, template rendering) are outside the claims and are not
modelled; every branch the claims talk about is.
-/

namespace Goshare

/-- Decimal digit characters of a natural number, written with explicit fuel so
that the recursion is structural.  This models the decimal rendering performed
by the format verb of fmt.Sprintf for an integer argument. -/
def digitsAux : Nat → Nat → List Char
  | 0, _ => []
  | fuel + 1, n =>
    if n < 10 then [Char.ofNat (48 + n)]
    else digitsAux fuel (n / 10) ++ [Char.ofNat (48 + n % 10)]

/-- Decimal rendering of a natural number (fuel instantiated sufficiently). -/
def decDigits (n : Nat) : List Char := digitsAux (n + 1) n

/-- The fuel argument of digitsAux is irrelevant as long as it exceeds the
number being rendered. -/
theorem digitsAux_fuel_eq : ∀ (n f₁ f₂ : Nat), n < f₁ → n < f₂ →
    digitsAux f₁ n = digitsAux f₂ n := by
  intro n
  induction n using Nat.strong_induction_on with
  | _ n ih =>
    intro f₁ f₂ h₁ h₂
    match f₁, f₂ with
    | g₁ + 1, g₂ + 1 =>
      simp only [digitsAux]
      by_cases hn : n < 10
      · simp [hn]
      · simp only [hn, if_false]
        have hdiv : n / 10 < n := Nat.div_lt_self (by omega) (by omega)
        rw [ih (n / 10) hdiv g₁ g₂ (by omega) (by omega)]

/-- Unfolding lemma for decDigits on numbers with at least two digits. -/
theorem decDigits_ge_ten (n : Nat) (h : 10 ≤ n) :
    decDigits n = decDigits (n / 10) ++ [Char.ofNat (48 + n % 10)] := by
  have hdiv : n / 10 < n := Nat.div_lt_self (by omega) (by omega)
  have lhs : decDigits n = digitsAux n (n / 10) ++ [Char.ofNat (48 + n % 10)] := by
    simp only [decDigits, digitsAux, Nat.not_lt.mpr h, if_false]
  rw [lhs, digitsAux_fuel_eq (n / 10) n (n / 10 + 1) hdiv (by omega)]
  rfl

/-- A decimal rendering is never the empty string. -/
theorem decDigits_ne_nil (n : Nat) : decDigits n ≠ [] := by
  simp only [decDigits, digitsAux]
  by_cases h : n < 10 <;> simp [h]

/-- The decimal rendering of 10 ^ k has exactly k + 1 digits, so renderings of
unbounded numbers are unboundedly long. -/
theorem decDigits_pow_len (k : Nat) : (decDigits (10 ^ k)).length = k + 1 := by
  induction k with
  | zero => decide
  | succ k ih =>
    have h10 : 10 ≤ 10 ^ (k + 1) := by
      calc 10 = 10 ^ 1 := by norm_num
      _ ≤ 10 ^ (k + 1) := Nat.pow_le_pow_right (by omega) (by omega)
    rw [decDigits_ge_ten _ h10]
    have : 10 ^ (k + 1) / 10 = 10 ^ k := by
      rw [pow_succ]
      exact Nat.mul_div_cancel _ (by omega)
    rw [this]
    simp [ih]

/-- Go's filepath.Ext applied to a bare file name (no separators): the suffix
beginning at the final dot, or empty if the name contains no dot.
From utils.go line 24. -/
def extChars : List Char → List Char
  | [] => []
  | c :: cs => if '.' ∈ cs then extChars cs else if c = '.' then c :: cs else []

/-- The stem of a file name: everything before the extension.  This models the
slice filename up to len(filename)-len(ext) taken in utils.go line 25. -/
def stemChars (s : List Char) : List Char := s.take (s.length - (extChars s).length)

/-- The candidate name probed by the loop of getUniqueFilename: the Sprintf
of name, a dot, the counter in decimal, and the extension (utils.go line 29). -/
def mkSuffixed (base ext : List Char) (i : Nat) : List Char :=
  base ++ ('.' :: decDigits i) ++ ext

/-- The extension computed by extChars is a suffix of the original name. -/
theorem extChars_suffix (s : List Char) : ∃ b, s = b ++ extChars s := by
  induction s with
  | nil => exact ⟨[], rfl⟩
  | cons c cs ih =>
    by_cases hdot : '.' ∈ cs
    · obtain ⟨b, hb⟩ := ih
      exact ⟨c :: b, by simp [extChars, hdot]; exact hb⟩
    · by_cases hc : c = '.'
      · exact ⟨[], by simp [extChars, hdot, hc]⟩
      · exact ⟨c :: cs, by simp [extChars, hdot, hc]⟩

/-- Splitting a name into stem and extension loses nothing. -/
theorem stem_append_ext (s : List Char) : stemChars s ++ extChars s = s := by
  obtain ⟨b, hb⟩ := extChars_suffix s
  have hlen : s.length = b.length + (extChars s).length := by
    conv_lhs => rw [hb]
    simp
  have hstem : stemChars s = b := by
    simp only [stemChars, hlen]
    conv_lhs => rw [hb]
    rw [Nat.add_sub_cancel]
    exact List.take_left b (extChars s)
  rw [hstem, ← hb]

/-- Every member of a list of names is at most as long as the running maximum
of all the lengths. -/
theorem mem_length_le (D : List (List Char)) (x : List Char) (hx : x ∈ D) :
    x.length ≤ (D.map List.length).foldr max 0 := by
  induction D with
  | nil => simp at hx
  | cons d ds ih =>
    rcases List.mem_cons.mp hx with h | h
    · subst h
      exact Nat.le_max_left _ _
    · exact le_trans (ih h) (Nat.le_max_right _ _)

/-- Length of a probed candidate name. -/
theorem mkSuffixed_length (b e : List Char) (i : Nat) :
    (mkSuffixed b e i).length = b.length + 1 + (decDigits i).length + e.length := by
  simp [mkSuffixed]
  omega

/-- A directory holds finitely many names, so some probe index is free: the
candidate with a sufficiently large index is longer than every resident name.
This is the termination argument for the unbounded loop of getUniqueFilename. -/
theorem freeIndexExists (D : List (List Char)) (b e : List Char) :
    ∃ i, mkSuffixed b e i ∉ D := by
  refine ⟨10 ^ ((D.map List.length).foldr max 0), fun hmem => ?_⟩
  have h1 := mem_length_le D _ hmem
  have h2 := mkSuffixed_length b e (10 ^ ((D.map List.length).foldr max 0))
  rw [decDigits_pow_len] at h2
  omega

/-- Embedding of getUniqueFilename (utils.go lines 15-37).  The directory is
the list of names currently existing in dir; the os.Stat existence probe
becomes list membership.  If the requested name does not exist it is returned
unchanged; otherwise the name is split into stem and extension and candidates
stem.0.ext, stem.1.ext, ... are probed in increasing order, returning the
first candidate absent from the directory (the least free index, which is
what the loop starting at counter 0 computes). -/
def getUniqueFilename (D : List (List Char)) (filename : List Char) : List Char :=
  if filename ∈ D then
    mkSuffixed (stemChars filename) (extChars filename)
      (Nat.find (freeIndexExists D (stemChars filename) (extChars filename)))
  else filename

/-- A probed candidate is never equal to the concatenation of its own stem and
extension: it is strictly longer, because the inserted dot and the nonempty
decimal counter add at least two characters. -/
theorem mkSuffixed_ne_stem_ext (b e : List Char) (i : Nat) : mkSuffixed b e i ≠ b ++ e := by
  intro hcontra
  have h1 := congrArg List.length hcontra
  rw [mkSuffixed_length] at h1
  simp only [List.length_append] at h1
  have hpos : 0 < (decDigits i).length := List.length_pos.mpr (decDigits_ne_nil i)
  omega

/-- A node of the filesystem as seen by the listing helpers: either a regular
file with its name and size, or a directory with its direct entries. -/
inductive FsEntry where
  | file (name : String) (size : Nat)
  | dir (name : String) (children : List FsEntry)

/-- Embedding of the fileInfo struct: information about a file for display in
the UI (Name, Size, URL). -/
structure fileInfo where
  Name : String
  Size : Nat
  URL  : String
deriving DecidableEq

/-- The body of the directory-listing loops shared by getSharedFiles and
getUploadsFiles: a subdirectory entry is skipped, a file entry yields a
fileInfo whose URL is the route root followed by the file name. -/
def entryToInfo (urlRoot : String) : FsEntry → Option fileInfo
  | .dir _ _ => none
  | .file n s => some { Name := n, Size := s, URL := urlRoot ++ n }

/-- Whether a filesystem entry is a regular file (negation of entry.IsDir()). -/
def isFile : FsEntry → Bool
  | .file _ _ => true
  | .dir _ _ => false

/-- Replaces the contents of every direct subdirectory by the empty list.
Used to state that the listing helpers never recurse: their output cannot
depend on anything below a direct subdirectory. -/
def pruneEntry : FsEntry → FsEntry
  | .file n s => .file n s
  | .dir n _ => .dir n []

/-- Embedding of getUploadsFiles.  The argument is what os.Stat finds at the
uploads path: none when the path does not exist (stat error), otherwise the
node there.  A missing directory yields the empty list and no error; a
non-directory yields an error; a directory yields one fileInfo per direct
child file, subdirectories skipped. -/
def getUploadsFiles : Option FsEntry → Except String (List fileInfo)
  | none => .ok []
  | some (.file _ _) => .error "uploads path is not a directory"
  | some (.dir _ entries) => .ok (entries.filterMap (entryToInfo "/uploads/"))

/-- Embedding of getSharedFiles.  The argument is what os.Stat finds at the
share path: none when stat fails (the error is propagated), a single file
yields exactly one entry, and a directory yields one entry per direct child
file, subdirectories skipped. -/
def getSharedFiles : Option FsEntry → Except String (List fileInfo)
  | none => .error "stat: no such file or directory"
  | some (.file n s) => .ok [{ Name := n, Size := s, URL := "/shared/" ++ n }]
  | some (.dir _ entries) => .ok (entries.filterMap (entryToInfo "/shared/"))

/-- The listing loop produces exactly one entry per direct child file. -/
theorem filterMap_entryToInfo_length (urlRoot : String) (entries : List FsEntry) :
    (entries.filterMap (entryToInfo urlRoot)).length = (entries.filter isFile).length := by
  induction entries with
  | nil => rfl
  | cons e es ih =>
    cases e with
    | file n s => simp [List.filterMap_cons, List.filter_cons, entryToInfo, isFile, ih]
    | dir n cs => simp [List.filterMap_cons, List.filter_cons, entryToInfo, isFile, ih]

/-- Every direct child file contributes its entry to the listing. -/
theorem filterMap_entryToInfo_mem (urlRoot : String) (entries : List FsEntry)
    (fn : String) (fs : Nat) (hmem : FsEntry.file fn fs ∈ entries) :
    ({ Name := fn, Size := fs, URL := urlRoot ++ fn } : fileInfo) ∈
      entries.filterMap (entryToInfo urlRoot) := by
  induction entries with
  | nil => simp at hmem
  | cons e es ih =>
    rcases List.mem_cons.mp hmem with h | h
    · subst h
      rw [List.filterMap_cons]
      simp only [entryToInfo]
      exact List.mem_cons_self _ _
    · cases e with
      | file n s =>
        rw [List.filterMap_cons]
        simp only [entryToInfo]
        exact List.mem_cons_of_mem _ (ih h)
      | dir n cs =>
        rw [List.filterMap_cons]
        simp only [entryToInfo]
        exact ih h

/-- Every listed entry comes from a direct child file of the directory. -/
theorem filterMap_entryToInfo_src (urlRoot : String) (entries : List FsEntry)
    (fi : fileInfo) (hfi : fi ∈ entries.filterMap (entryToInfo urlRoot)) :
    FsEntry.file fi.Name fi.Size ∈ entries := by
  induction entries with
  | nil => simp at hfi
  | cons e es ih =>
    cases e with
    | file n s =>
      rw [List.filterMap_cons] at hfi
      simp only [entryToInfo] at hfi
      rcases List.mem_cons.mp hfi with h | h
      · subst h
        exact List.mem_cons_self _ _
      · exact List.mem_cons_of_mem _ (ih h)
    | dir n cs =>
      rw [List.filterMap_cons] at hfi
      simp only [entryToInfo] at hfi
      exact List.mem_cons_of_mem _ (ih hfi)

/-- The listing does not recurse: emptying every subdirectory leaves the
output unchanged. -/
theorem filterMap_entryToInfo_prune (urlRoot : String) (entries : List FsEntry) :
    (entries.map pruneEntry).filterMap (entryToInfo urlRoot) =
      entries.filterMap (entryToInfo urlRoot) := by
  induction entries with
  | nil => rfl
  | cons e es ih =>
    cases e with
    | file n s => simp [List.filterMap_cons, pruneEntry, entryToInfo, ih]
    | dir n cs => simp [List.filterMap_cons, pruneEntry, entryToInfo, ih]

/-- An inbound HTTP request, reduced to the data the goshare handlers inspect:
the method, the cookies sent (name-value pairs, in header order) and the
decoded query string (name-value pairs, in order of appearance). -/
structure Request where
  method : String
  cookies : List (String × String)
  query : List (String × String)

/-- The slice of query values bound to a name, as returned by indexing the
map produced by r.URL.Query(): all values of that parameter, in order. -/
def queryValues (r : Request) (name : String) : List String :=
  (r.query.filter (fun q => q.1 == name)).map (fun q => q.2)

/-- The value of the first cookie with the given name, as r.Cookie returns it;
none models the ErrNoCookie error. -/
def cookieValue (r : Request) (name : String) : Option String :=
  (r.cookies.find? (fun c => c.1 == name)).map (fun c => c.2)

/-- Embedding of validateKey (auth.go lines 22-31): true when the request has
at least one key query parameter and its first value equals the secret key. -/
def validateKey (secretKey : String) (r : Request) : Bool :=
  match queryValues r "key" with
  | [] => false
  | k :: _ => k == secretKey

/-- Embedding of validateKeyCookie (auth.go lines 34-43): true when the
request carries a cookie named key whose value equals the secret key. -/
def validateKeyCookie (secretKey : String) (r : Request) : Bool :=
  match cookieValue r "key" with
  | none => false
  | some v => v == secretKey

/-- Outcome of a guarded route: either the 401 error written before the
wrapped handler could run, or the wrapped handler's own result. -/
inductive GuardResult (α : Type) where
  | unauthorized (status : Nat) (msg : String)
  | handled (result : α)
deriving DecidableEq

/-- Embedding of the requireKey middleware (auth.go lines 46-54): without a
valid key cookie the request is answered 401 Unauthorized and the wrapped
handler never runs; with one, the wrapped handler runs. -/
def requireKey {α : Type} (secretKey : String) (handler : Request → α)
    (r : Request) : GuardResult α :=
  if !validateKeyCookie secretKey r then
    .unauthorized 401 "Unauthorized: invalid or missing key cookie"
  else
    .handled (handler r)

/-- Embedding of the inline guard of the /uploads/ route (webserver.go lines
62-69): the cookie check performed before the uploads file server runs. -/
def uploadsRouteGuard {α : Type} (secretKey : String) (fileServer : Request → α)
    (r : Request) : GuardResult α :=
  if !validateKeyCookie secretKey r then
    .unauthorized 401 "Unauthorized: invalid or missing key cookie"
  else
    .handled (fileServer r)

/-- Embedding of the inline guard of the /shared/ directory route
(webserver.go lines 44-51): identical cookie check before the shared file
server runs. -/
def sharedRouteGuard {α : Type} (secretKey : String) (fileServer : Request → α)
    (r : Request) : GuardResult α :=
  if !validateKeyCookie secretKey r then
    .unauthorized 401 "Unauthorized: invalid or missing key cookie"
  else
    .handled (fileServer r)

/-- The cookie written by http.SetCookie in the root handler. -/
structure SetCookie where
  name : String
  value : String
  path : String
  httpOnly : Bool
  maxAge : Int
deriving DecidableEq

/-- Outcome of the root route: a see-other redirect carrying a freshly set
cookie, a Forbidden error with a short message and no page content, or the
rendered index page. -/
inductive RootResponse where
  | redirectWithCookie (status : Nat) (location : String) (cookie : SetCookie)
  | forbidden (status : Nat) (msg : String)
  | page
deriving DecidableEq

/-- Embedding of the root-route handler's authentication dispatch
(webserver.go lines 72-94): without a valid cookie, a valid query key earns
the cookie (name key, value the secret, path /, HttpOnly, MaxAge 3600) and a
303 redirect back to /; with neither, 403 Forbidden; with a valid cookie the
page is rendered. -/
def rootHandler (secretKey : String) (r : Request) : RootResponse :=
  if !validateKeyCookie secretKey r then
    if validateKey secretKey r then
      .redirectWithCookie 303 "/"
        { name := "key", value := secretKey, path := "/", httpOnly := true, maxAge := 3600 }
    else
      .forbidden 403 "No key provided"
  else
    .page

/-- Outcome of the body of the /upload handler, past the requireKey guard. -/
inductive UploadResponse where
  | methodNotAllowed (status : Nat) (msg : String)
  | seeOther (status : Nat) (location : String)
deriving DecidableEq

/-- Effect of os.Create on the set of names in a directory: the name comes
into existence; creating an already-existing name truncates it in place. -/
def osCreate (D : List (List Char)) (filename : List Char) : List (List Char) :=
  if filename ∈ D then D else filename :: D

/-- Embedding of the /upload handler body (webserver.go lines 292-341), on
the path the claims concern: the method gate rejects non-POST requests with
405; otherwise the client-requested form file name is resolved through
getUniqueFilename against the current uploads directory, the destination is
created under the resolved name, and the handler redirects 303 to the root
with a success message.  The I/O failure branches (multipart parse, form
file retrieval, directory creation, copy), which bail out with an error
redirect before or after the same resolution, are not modelled. -/
def uploadHandlerBody (D : List (List Char)) (r : Request) (formFilename : List Char) :
    List (List Char) × UploadResponse :=
  if r.method != "POST" then
    (D, .methodNotAllowed 405 "Method not allowed")
  else
    let uniqueFilename := getUniqueFilename D formFilename
    (osCreate D uniqueFilename,
      .seeOther 303 "/?message=File uploaded successfully!&type=success")

/-- The /upload route as registered: the handler body wrapped in requireKey
(webserver.go line 292). -/
def uploadRoute (secretKey : String) (D : List (List Char)) (r : Request)
    (formFilename : List Char) : GuardResult (List (List Char) × UploadResponse) :=
  requireKey secretKey (fun req => uploadHandlerBody D req formFilename) r

/-- The name returned for an already-present request never exists in the
directory at call time (the loop returns the first free candidate). -/
theorem getUniqueFilename_not_exists (D : List (List Char)) (N : List Char) (h : N ∈ D) :
    getUniqueFilename D N ∉ D := by
  simp only [getUniqueFilename, if_pos h]
  exact Nat.find_spec (freeIndexExists D (stemChars N) (extChars N))

/-- The name returned for an already-present request differs from the request:
every probed candidate is strictly longer than the original name. -/
theorem getUniqueFilename_ne (D : List (List Char)) (N : List Char) (h : N ∈ D) :
    getUniqueFilename D N ≠ N := by
  simp only [getUniqueFilename, if_pos h]
  intro hcontra
  exact mkSuffixed_ne_stem_ext _ _ _ (hcontra.trans (stem_append_ext N).symm)

/-- Claim C4: for a name already present in the directory, getUniqueFilename
returns a different name that does not exist in the directory at call time,
obtained as the first free candidate stem.i.ext in increasing order of i
(every smaller index is occupied); and on the concrete directory holding
a.txt and a.0.txt through a.4.txt, resolving a.txt yields a.5.txt.  The
probe is a pure function of the directory contents and the requested name,
so repeated calls before any file is created return the same result. -/
theorem getUniqueFilename_collision_spec (D : List (List Char)) (N : List Char) (h : N ∈ D) :
    getUniqueFilename D N ≠ N ∧
    getUniqueFilename D N ∉ D ∧
    (∃ i, getUniqueFilename D N = mkSuffixed (stemChars N) (extChars N) i ∧
      ∀ j, j < i → mkSuffixed (stemChars N) (extChars N) j ∈ D) ∧
    getUniqueFilename
      ["a.txt".data, "a.0.txt".data, "a.1.txt".data, "a.2.txt".data, "a.3.txt".data,
        "a.4.txt".data] "a.txt".data = "a.5.txt".data := by
  refine ⟨getUniqueFilename_ne D N h, getUniqueFilename_not_exists D N h, ?_, ?_⟩
  · refine ⟨Nat.find (freeIndexExists D (stemChars N) (extChars N)),
      by simp only [getUniqueFilename, if_pos h], ?_⟩
    intro j hj
    have hmin := Nat.find_min (freeIndexExists D (stemChars N) (extChars N)) hj
    exact not_not.mp hmin
  · have h5 : Nat.find (freeIndexExists
        ["a.txt".data, "a.0.txt".data, "a.1.txt".data, "a.2.txt".data, "a.3.txt".data,
          "a.4.txt".data] (stemChars "a.txt".data) (extChars "a.txt".data)) = 5 := by
      rw [Nat.find_eq_iff]
      refine ⟨by decide, ?_⟩
      intro m hm
      interval_cases m <;> decide
    have hmem : "a.txt".data ∈
        ["a.txt".data, "a.0.txt".data, "a.1.txt".data, "a.2.txt".data, "a.3.txt".data,
          "a.4.txt".data] := by decide
    simp only [getUniqueFilename, if_pos hmem, h5]
    decide

/-- Witness for claim C4 at a concrete directory and name. -/
theorem getUniqueFilename_collision_spec_witness :
    getUniqueFilename ["a.txt".data, "b.pdf".data] "a.txt".data ≠ "a.txt".data :=
  (getUniqueFilename_collision_spec ["a.txt".data, "b.pdf".data] "a.txt".data (by decide)).1

/-- Claim C5: a requested name not present in the directory is returned
unchanged. -/
theorem getUniqueFilename_absent_spec (D : List (List Char)) (N : List Char) (h : N ∉ D) :
    getUniqueFilename D N = N := by
  simp [getUniqueFilename, h]

/-- Witness for claim C5 at a concrete directory and name. -/
theorem getUniqueFilename_absent_spec_witness :
    getUniqueFilename ["b.pdf".data] "a.txt".data = "a.txt".data :=
  getUniqueFilename_absent_spec ["b.pdf".data] "a.txt".data (by decide)

/-- Claim C6: the unbounded probe of getUniqueFilename terminates on every
finite directory: some suffix index yields a candidate not present in the
directory, and the function returns that candidate. -/
theorem getUniqueFilename_terminates (D : List (List Char)) (N : List Char) (h : N ∈ D) :
    ∃ i, mkSuffixed (stemChars N) (extChars N) i ∉ D ∧
      getUniqueFilename D N = mkSuffixed (stemChars N) (extChars N) i :=
  ⟨Nat.find (freeIndexExists D (stemChars N) (extChars N)),
    Nat.find_spec (freeIndexExists D (stemChars N) (extChars N)),
    by simp only [getUniqueFilename, if_pos h]⟩

/-- Witness for claim C6 at a concrete directory and name. -/
theorem getUniqueFilename_terminates_witness :
    ∃ i, mkSuffixed (stemChars "a.txt".data) (extChars "a.txt".data) i ∉
        (["a.txt".data] : List (List Char)) ∧
      getUniqueFilename ["a.txt".data] "a.txt".data =
        mkSuffixed (stemChars "a.txt".data) (extChars "a.txt".data) i :=
  getUniqueFilename_terminates ["a.txt".data] "a.txt".data (by decide)

/-- Claim C9: the result of getUniqueFilename is either the requested name
itself or of the shape stem.i.ext for the stem and extension of the request
and a decimal counter i, so the extension is always preserved; and for a
request with no extension the counter is appended after the whole name. -/
theorem getUniqueFilename_shape (D : List (List Char)) (N : List Char) :
    (getUniqueFilename D N = N ∨
      ∃ i, getUniqueFilename D N = mkSuffixed (stemChars N) (extChars N) i) ∧
    (extChars N = [] →
      getUniqueFilename D N = N ∨
      ∃ i, getUniqueFilename D N = N ++ '.' :: decDigits i) := by
  constructor
  · by_cases h : N ∈ D
    · exact Or.inr ⟨Nat.find (freeIndexExists D (stemChars N) (extChars N)),
        by simp only [getUniqueFilename, if_pos h]⟩
    · exact Or.inl (by simp [getUniqueFilename, h])
  · intro hext
    by_cases h : N ∈ D
    · refine Or.inr ⟨Nat.find (freeIndexExists D (stemChars N) (extChars N)), ?_⟩
      have hstem : stemChars N = N := by simp [stemChars, hext]
      simp only [getUniqueFilename, if_pos h, mkSuffixed, hstem, hext]
      simp
    · exact Or.inl (by simp [getUniqueFilename, h])

/-- Witness for claim C9 at a concrete extensionless name present in the
directory. -/
theorem getUniqueFilename_shape_witness :
    getUniqueFilename ["data".data] "data".data = "data".data ∨
    ∃ i, getUniqueFilename ["data".data] "data".data = "data".data ++ '.' :: decDigits i :=
  (getUniqueFilename_shape ["data".data] "data".data).2 (by decide)

/-- Claim C1: on a successful authorized POST upload, the client-requested
filename is resolved through getUniqueFilename before the destination file is
created, so when the requested name already exists in the uploads directory
the handler creates a fresh, differently-named file and the old file
survives: the resolved name is absent from the directory beforehand (no
silent overwrite), differs from the request, and both names exist afterward.
On the concrete directory already holding report.pdf, uploading report.pdf
creates report.0.pdf next to it. -/
theorem uploadHandler_collision_spec (D : List (List Char)) (r : Request) (N : List Char)
    (hpost : r.method = "POST") (hmem : N ∈ D) :
    ((uploadHandlerBody D r N).1 = getUniqueFilename D N :: D ∧
      getUniqueFilename D N ∉ D ∧
      getUniqueFilename D N ≠ N ∧
      N ∈ (uploadHandlerBody D r N).1 ∧
      getUniqueFilename D N ∈ (uploadHandlerBody D r N).1) ∧
    uploadHandlerBody ["report.pdf".data] { method := "POST", cookies := [], query := [] }
        "report.pdf".data =
      (["report.0.pdf".data, "report.pdf".data],
        .seeOther 303 "/?message=File uploaded successfully!&type=success") := by
  have hfresh := getUniqueFilename_not_exists D N hmem
  have hbody : (uploadHandlerBody D r N).1 = getUniqueFilename D N :: D := by
    simp [uploadHandlerBody, hpost, osCreate, hfresh]
  refine ⟨⟨hbody, hfresh, getUniqueFilename_ne D N hmem, ?_, ?_⟩, ?_⟩
  · rw [hbody]
    exact List.mem_cons_of_mem _ hmem
  · rw [hbody]
    exact List.mem_cons_self _ _
  · have h0 : Nat.find (freeIndexExists ["report.pdf".data]
        (stemChars "report.pdf".data) (extChars "report.pdf".data)) = 0 := by
      rw [Nat.find_eq_zero]
      decide
    have hu : getUniqueFilename ["report.pdf".data] "report.pdf".data =
        "report.0.pdf".data := by
      have hm : "report.pdf".data ∈ ["report.pdf".data] := by decide
      simp only [getUniqueFilename, if_pos hm, h0]
      decide
    simp only [uploadHandlerBody, hu]
    decide

/-- Witness for claim C1 at a concrete directory, request and name. -/
theorem uploadHandler_collision_spec_witness :
    (uploadHandlerBody ["report.pdf".data]
        { method := "POST", cookies := [], query := [] } "report.pdf".data).1 =
      getUniqueFilename ["report.pdf".data] "report.pdf".data :: ["report.pdf".data] :=
  ((uploadHandler_collision_spec ["report.pdf".data]
    { method := "POST", cookies := [], query := [] } "report.pdf".data
    rfl (by decide)).1).1

/-- Claim C2: on the root route, a request without a valid session cookie
whose first key query value equals the secret key receives a 303 see-other
redirect to / carrying a cookie named key with the secret as value, path /,
HttpOnly, max-age 3600; a request with neither a valid cookie nor a valid
query key receives 403 Forbidden and no page; a request with a valid cookie
gets the page rendered directly, no redirect. -/
theorem rootHandler_spec (secretKey : String) (r : Request) :
    (validateKeyCookie secretKey r = false →
      (queryValues r "key").head? = some secretKey →
      rootHandler secretKey r = .redirectWithCookie 303 "/"
        { name := "key", value := secretKey, path := "/", httpOnly := true,
          maxAge := 3600 }) ∧
    (validateKeyCookie secretKey r = false → validateKey secretKey r = false →
      rootHandler secretKey r = .forbidden 403 "No key provided") ∧
    (validateKeyCookie secretKey r = true → rootHandler secretKey r = .page) := by
  refine ⟨?_, ?_, ?_⟩
  · intro hc hq
    have hv : validateKey secretKey r = true := by
      cases hqv : queryValues r "key" with
      | nil => rw [hqv] at hq; exact absurd hq (by simp)
      | cons k ks =>
        rw [hqv] at hq
        simp only [List.head?_cons, Option.some.injEq] at hq
        simp [validateKey, hqv, hq]
    simp [rootHandler, hc, hv]
  · intro hc hv
    simp [rootHandler, hc, hv]
  · intro hc
    simp [rootHandler, hc]

/-- Witness for claim C2 at concrete requests covering all three branches. -/
theorem rootHandler_spec_witness :
    rootHandler "s" { method := "GET", cookies := [], query := [("key", "s")] } =
      .redirectWithCookie 303 "/"
        { name := "key", value := "s", path := "/", httpOnly := true, maxAge := 3600 } ∧
    rootHandler "s" { method := "GET", cookies := [], query := [] } =
      .forbidden 403 "No key provided" ∧
    rootHandler "s" { method := "GET", cookies := [("key", "s")], query := [] } = .page :=
  ⟨(rootHandler_spec "s" _).1 (by decide) (by decide),
    (rootHandler_spec "s" _).2.1 (by decide) (by decide),
    (rootHandler_spec "s" _).2.2 (by decide)⟩

/-- Claim C3: every strict-policy route (the requireKey-wrapped handlers for
POST /upload and the single shared file, and the inline guards of the
/uploads/ and /shared/ directory routes) answers 401 Unauthorized and never
runs the wrapped handler when the request lacks a cookie named key holding
the secret — regardless of any key query parameter, since the guards consult
only the cookie — and runs the wrapped handler when the cookie is valid. -/
theorem strictRoutes_spec {α : Type} (secretKey : String)
    (handler fileServer1 fileServer2 : Request → α) (r : Request) :
    (validateKeyCookie secretKey r = false →
      requireKey secretKey handler r =
        .unauthorized 401 "Unauthorized: invalid or missing key cookie" ∧
      uploadsRouteGuard secretKey fileServer1 r =
        .unauthorized 401 "Unauthorized: invalid or missing key cookie" ∧
      sharedRouteGuard secretKey fileServer2 r =
        .unauthorized 401 "Unauthorized: invalid or missing key cookie") ∧
    (validateKeyCookie secretKey r = true →
      requireKey secretKey handler r = .handled (handler r) ∧
      uploadsRouteGuard secretKey fileServer1 r = .handled (fileServer1 r) ∧
      sharedRouteGuard secretKey fileServer2 r = .handled (fileServer2 r)) := by
  constructor
  · intro hc
    exact ⟨by simp [requireKey, hc], by simp [uploadsRouteGuard, hc],
      by simp [sharedRouteGuard, hc]⟩
  · intro hc
    exact ⟨by simp [requireKey, hc], by simp [uploadsRouteGuard, hc],
      by simp [sharedRouteGuard, hc]⟩

/-- Witness for claim C3: a request carrying a correct key query parameter
but no cookie is still rejected by every strict-policy guard. -/
theorem strictRoutes_spec_witness :
    requireKey "s" (fun _ => (0 : Nat))
        { method := "POST", cookies := [], query := [("key", "s")] } =
      .unauthorized 401 "Unauthorized: invalid or missing key cookie" ∧
    uploadsRouteGuard "s" (fun _ => (1 : Nat))
        { method := "POST", cookies := [], query := [("key", "s")] } =
      .unauthorized 401 "Unauthorized: invalid or missing key cookie" ∧
    sharedRouteGuard "s" (fun _ => (2 : Nat))
        { method := "POST", cookies := [], query := [("key", "s")] } =
      .unauthorized 401 "Unauthorized: invalid or missing key cookie" :=
  (strictRoutes_spec "s" (fun _ => (0 : Nat)) (fun _ => (1 : Nat)) (fun _ => (2 : Nat))
    { method := "POST", cookies := [], query := [("key", "s")] }).1 (by decide)

/-- Claim C7: getUploadsFiles on a nonexistent path returns the empty list
and no error; on a non-directory it returns an error; on a directory it
returns exactly one entry per direct child file (membership in both
directions and matching count), subdirectories skipped, with no recursion
(emptying every subdirectory leaves the output unchanged). -/
theorem getUploadsFiles_spec :
    getUploadsFiles none = .ok [] ∧
    (∀ n s, getUploadsFiles (some (.file n s)) =
      .error "uploads path is not a directory") ∧
    (∀ n entries, ∃ l, getUploadsFiles (some (.dir n entries)) = .ok l ∧
      l.length = (entries.filter isFile).length ∧
      (∀ fn fs, FsEntry.file fn fs ∈ entries →
        ({ Name := fn, Size := fs, URL := "/uploads/" ++ fn } : fileInfo) ∈ l) ∧
      (∀ fi ∈ l, FsEntry.file fi.Name fi.Size ∈ entries)) ∧
    (∀ n entries, getUploadsFiles (some (.dir n (entries.map pruneEntry))) =
      getUploadsFiles (some (.dir n entries))) := by
  refine ⟨rfl, fun n s => rfl, fun n entries => ?_, fun n entries => ?_⟩
  · exact ⟨entries.filterMap (entryToInfo "/uploads/"), rfl,
      filterMap_entryToInfo_length _ _,
      fun fn fs hm => filterMap_entryToInfo_mem _ _ fn fs hm,
      fun fi hfi => filterMap_entryToInfo_src _ _ fi hfi⟩
  · simp only [getUploadsFiles, filterMap_entryToInfo_prune]

/-- Witness for claim C7 at concrete inputs: a missing directory, a plain
file, and a directory with one file and one subdirectory. -/
theorem getUploadsFiles_spec_witness :
    getUploadsFiles none = .ok [] ∧
    getUploadsFiles (some (.file "f" 3)) = .error "uploads path is not a directory" ∧
    (∃ l, getUploadsFiles (some (.dir "uploads" [.file "f" 1, .dir "d" [.file "g" 2]])) =
        .ok l ∧
      ({ Name := "f", Size := 1, URL := "/uploads/f" } : fileInfo) ∈ l) := by
  refine ⟨getUploadsFiles_spec.1, getUploadsFiles_spec.2.1 "f" 3, ?_⟩
  obtain ⟨l, hok, _, hmem, _⟩ :=
    getUploadsFiles_spec.2.2.1 "uploads" [.file "f" 1, .dir "d" [.file "g" 2]]
  exact ⟨l, hok, hmem "f" 1 (List.mem_cons_self _ _)⟩

/-- Claim C8: getSharedFiles on a single file returns exactly that file's
entry; on a directory it returns one entry per direct child file
(membership in both directions and matching count), subdirectories skipped;
in particular a directory holding one file and one subdirectory yields
exactly the one file entry. -/
theorem getSharedFiles_spec :
    (∀ n s, getSharedFiles (some (.file n s)) =
      .ok [{ Name := n, Size := s, URL := "/shared/" ++ n }]) ∧
    (∀ n entries, ∃ l, getSharedFiles (some (.dir n entries)) = .ok l ∧
      l.length = (entries.filter isFile).length ∧
      (∀ fn fs, FsEntry.file fn fs ∈ entries →
        ({ Name := fn, Size := fs, URL := "/shared/" ++ fn } : fileInfo) ∈ l) ∧
      (∀ fi ∈ l, FsEntry.file fi.Name fi.Size ∈ entries)) ∧
    (∀ dn sn skids fn fs,
      getSharedFiles (some (.dir dn [.file fn fs, .dir sn skids])) =
        .ok [{ Name := fn, Size := fs, URL := "/shared/" ++ fn }]) := by
  refine ⟨fun n s => rfl, fun n entries => ?_, fun dn sn skids fn fs => rfl⟩
  exact ⟨entries.filterMap (entryToInfo "/shared/"), rfl,
    filterMap_entryToInfo_length _ _,
    fun fn fs hm => filterMap_entryToInfo_mem _ _ fn fs hm,
    fun fi hfi => filterMap_entryToInfo_src _ _ fi hfi⟩

/-- Witness for claim C8 at concrete inputs: a single shared file and a
directory with one file and one subdirectory. -/
theorem getSharedFiles_spec_witness :
    getSharedFiles (some (.file "movie.mp4" 7)) =
      .ok [{ Name := "movie.mp4", Size := 7, URL := "/shared/movie.mp4" }] ∧
    (∃ l, getSharedFiles (some (.dir "share" [.file "f" 1, .dir "d" [.file "g" 2]])) =
        .ok l ∧
      ({ Name := "f", Size := 1, URL := "/shared/f" } : fileInfo) ∈ l) := by
  refine ⟨getSharedFiles_spec.1 "movie.mp4" 7, ?_⟩
  obtain ⟨l, hok, _, hmem, _⟩ :=
    getSharedFiles_spec.2.1 "share" [.file "f" 1, .dir "d" [.file "g" 2]]
  exact ⟨l, hok, hmem "f" 1 (List.mem_cons_self _ _)⟩

/-- Claim C10: on the /upload route the requireKey guard runs before the
method check, so a request without a valid key cookie is answered 401
whatever its method, and a cookie-bearing request with a non-POST method is
answered 405 Method Not Allowed. -/
theorem uploadRoute_auth_before_method (secretKey : String) (D : List (List Char))
    (r : Request) (formFilename : List Char) :
    (validateKeyCookie secretKey r = false →
      uploadRoute secretKey D r formFilename =
        .unauthorized 401 "Unauthorized: invalid or missing key cookie") ∧
    (validateKeyCookie secretKey r = true → r.method ≠ "POST" →
      uploadRoute secretKey D r formFilename =
        .handled (D, .methodNotAllowed 405 "Method not allowed")) := by
  constructor
  · intro hc
    simp [uploadRoute, requireKey, hc]
  · intro hc hm
    simp [uploadRoute, requireKey, hc, uploadHandlerBody, hm]

/-- Witness for claim C10: a GET request with no cookie is 401 even though
its method is wrong, and a cookie-bearing GET request is 405. -/
theorem uploadRoute_auth_before_method_witness :
    uploadRoute "s" [] { method := "GET", cookies := [], query := [] } [] =
      .unauthorized 401 "Unauthorized: invalid or missing key cookie" ∧
    uploadRoute "s" [] { method := "GET", cookies := [("key", "s")], query := [] } [] =
      .handled ([], .methodNotAllowed 405 "Method not allowed") :=
  ⟨(uploadRoute_auth_before_method "s" [] { method := "GET", cookies := [], query := [] }
      []).1 (by decide),
    (uploadRoute_auth_before_method "s" []
      { method := "GET", cookies := [("key", "s")], query := [] } []).2 (by decide)
      (by decide)⟩

end Goshare
